import Mathlib

/-!
Shallow embedding of the ETF screener normalization pipeline of
`src/streamlit_app.py` (class `CachedETFDataFetcher` and the presentation
logic of `main`).

JSON scalar values are modelled by `JVal`; a Python dict is modelled as an
association list in insertion order (Python dicts preserve insertion order
and have unique keys).  Python floats are modelled as exact rationals, and
the `f"{x:,.2f}"` / `f"{x:.2%}"` format strings as exact round-half-to-even
rounding at two decimals (`rhe`, `round2`).  `pd.to_numeric(·, errors='coerce')`
is modelled by `toNumeric`: numbers pass through, `None` becomes "no value"
(`Option.none`, pandas `NaN`), booleans coerce to 0/1, and strings go
through a plain decimal-notation parser (`parseNumeric`); scientific
notation and surrounding whitespace, which the claims never exercise, are
out of scope of the string parser.
-/

/-- A JSON scalar value as it appears in one screener entry. -/
inductive JVal where
  | jnum  (q : ℚ)
  | jstr  (s : String)
  | jbool (b : Bool)
  | jnull
deriving DecidableEq

/-- One Python dict with string keys, in insertion order. -/
abbrev Row := List (String × JVal)

/-- Python's `d.get(k, dflt)`: the stored value when the key is present
(even when that value is `None`), the default otherwise. -/
def dget (d : Row) (k : String) (dflt : JVal) : JVal :=
  (d.lookup k).getD dflt

/-! ### Decimal formatting (Python `f"{x:,.2f}"`, `f"{x:.2f}"`, `f"{x:.2%}"`) -/

/-- The decimal digit character for `d < 10`. -/
def digitChar (d : Nat) : Char := Char.ofNat (48 + d)

/-- Big-endian decimal digits of `n`, with `fuel ≥ n` steps available. -/
def natDigitsAux : Nat → Nat → List Char
  | 0, _ => []
  | _ + 1, 0 => []
  | fuel + 1, n => natDigitsAux fuel (n / 10) ++ [digitChar (n % 10)]

/-- Big-endian decimal digits of `n` (`"0"` for zero), as Python prints it. -/
def natDigits (n : Nat) : List Char :=
  if n = 0 then ['0'] else natDigitsAux n n

/-- A two-digit zero-padded decimal rendering of `r < 100` (the `.2f`
fractional part). -/
def pad2 (r : Nat) : List Char := [digitChar (r / 10), digitChar (r % 10)]

/-- Insert a thousands separator every three characters of a reversed digit
list (fuel-driven so that it computes by `rfl`). -/
def groupRevAux : Nat → List Char → List Char
  | 0, l => l
  | fuel + 1, l =>
    if l.length ≤ 3 then l else l.take 3 ++ ',' :: groupRevAux fuel (l.drop 3)

/-- Python's `,` format option: `"450000"` becomes `"450,000"`. -/
def commaGroup (ds : List Char) : List Char :=
  (groupRevAux ds.length ds.reverse).reverse

/-- Round half to even: `⌊x⌉` with ties going to the even integer, which is
how Python's `format` rounds. -/
def rhe (x : ℚ) : ℤ :=
  if x - ⌊x⌋ < 1/2 then ⌊x⌋
  else if 1/2 < x - ⌊x⌋ then ⌊x⌋ + 1
  else if 2 ∣ ⌊x⌋ then ⌊x⌋ else ⌊x⌋ + 1

/-- The integer `100·x` rounded half to even: the two-decimal rendering of
`x` is `round2 x` split as integer part and two fractional digits. -/
def round2 (x : ℚ) : ℤ := rhe (100 * x)

/-- The sign characters of Python's rendering of `x` at two decimals: a
leading `'-'` exactly when `x` is negative (Python keeps the sign of the
float even when the rounded digits are zero, e.g. `"-0.00"`). -/
def signChars (x : ℚ) : List Char := if x < 0 then ['-'] else []

/-- `f"{x:,.2f}"`: sign, comma-grouped integer digits, point, two
fractional digits. -/
def fmt2groupedL (x : ℚ) : List Char :=
  signChars x ++ commaGroup (natDigits ((round2 x).natAbs / 100))
    ++ '.' :: pad2 ((round2 x).natAbs % 100)

/-- `f"{x:.2f}"`: as `fmt2groupedL` but without thousands separators (the
`%` format does not group digits). -/
def fmt2plainL (x : ℚ) : List Char :=
  signChars x ++ natDigits ((round2 x).natAbs / 100)
    ++ '.' :: pad2 ((round2 x).natAbs % 100)

/-- Line 572: `f"${x:,.2f}" if pd.notnull(x) else ''`. -/
def fmtDollar : Option ℚ → String
  | none => ""
  | some x => ⟨'$' :: fmt2groupedL x⟩

/-- Line 574: `f"${x:,.2f}M" if pd.notnull(x) else ''`. -/
def fmtDollarM : Option ℚ → String
  | none => ""
  | some x => ⟨'$' :: (fmt2groupedL x ++ ['M'])⟩

/-- Line 576: `f"{x:.2%}" if pd.notnull(x) else ''` — the value times 100,
two decimals, percent sign. -/
def fmtPercent : Option ℚ → String
  | none => ""
  | some x => ⟨fmt2plainL (100 * x) ++ ['%']⟩

/-! ### Numeric coercion (`pd.to_numeric(·, errors='coerce')`) -/

/-- A decimal digit character, by code point. -/
def isDigitCh (c : Char) : Bool := 48 ≤ c.toNat && c.toNat ≤ 57

/-- The numeric value of a digit character. -/
def digitVal (c : Char) : Nat := c.toNat - 48

/-- Big-endian digit list to number (Horner). -/
def digitsToNat (cs : List Char) : Nat :=
  cs.foldl (fun a c => 10 * a + digitVal c) 0

/-- Split a character list at its only `'.'`; `none` when there is more
than one point. -/
def splitDot : List Char → Option (List Char × List Char)
  | [] => some ([], [])
  | c :: t =>
    if c = '.' then
      if t.contains '.' then none else some ([], t)
    else
      match splitDot t with
      | some (i, f) => some (c :: i, f)
      | none => none

/-- Plain decimal-notation parsing of a string to a rational, modelling the
float conversion inside `pd.to_numeric` on the strings this pipeline
produces: optional sign, digits, optional point, digits. -/
def parseNumericL (l : List Char) : Option ℚ :=
  let sg : ℚ := if l.head? = some '-' then -1 else 1
  let body := if l.head? = some '-' ∨ l.head? = some '+' then l.tail else l
  match splitDot body with
  | none => none
  | some (i, f) =>
    if i.all isDigitCh && f.all isDigitCh && !(i.isEmpty && f.isEmpty) then
      some (sg * ((digitsToNat i : ℚ) + (digitsToNat f : ℚ) / 10 ^ f.length))
    else none

/-- `parseNumericL` on a string's characters. -/
def parseNumeric (s : String) : Option ℚ := parseNumericL s.data

/-- `pd.to_numeric(v, errors='coerce')` on one cell: `none` is pandas `NaN`
("no value").  Numbers pass through, `None` coerces to `NaN`, booleans to
0/1, strings are parsed and coerce to `NaN` on failure. -/
def toNumeric : JVal → Option ℚ
  | .jnum q => some q
  | .jstr s => parseNumeric s
  | .jbool b => some (if b then 1 else 0)
  | .jnull => none

/-! ### The normalization pipeline -/

/-- Lines 549–568, `_process_etf_entry`: one raw `(ticker, attributes)`
pair becomes one fixed fifteen-key record; missing string attributes
default to `''`, missing numeric attributes to `0`, a missing `optionable`
flag to `False`, and raw attributes outside the renaming table are
dropped. -/
def processEtfEntry (entry : String × Row) : Row :=
  [("TICKER_SYMBOL", .jstr entry.1),
   ("ETF_ISSUER", dget entry.2 "issuer" (.jstr "")),
   ("ETF_DESCRIPTION", dget entry.2 "n" (.jstr "")),
   ("ASSET_CLASS", dget entry.2 "assetClass" (.jstr "")),
   ("INCEPTION_DATE", dget entry.2 "inceptionDate" (.jstr "")),
   ("ASSETS_UNDER_MANAGEMENT", dget entry.2 "aum" (.jnum 0)),
   ("EXPENSE_RATIO", dget entry.2 "expenseRatio" (.jnum 0)),
   ("NUMBER_OF_HOLDINGS", dget entry.2 "holdings" (.jnum 0)),
   ("CURRENT_PRICE", dget entry.2 "price" (.jnum 0)),
   ("CUSIP", dget entry.2 "cusip" (.jstr "")),
   ("ETF_CATEGORY", dget entry.2 "etfCategory" (.jstr "")),
   ("TRACKING_INDEX", dget entry.2 "etfIndex" (.jstr "")),
   ("GEOGRAPHIC_REGION", dget entry.2 "etfRegion" (.jstr "")),
   ("COUNTRY_FOCUS", dget entry.2 "etfCountry" (.jstr "")),
   ("HAS_OPTIONS", dget entry.2 "optionable" (.jbool false))]

/-- The fifteen output keys of `_process_etf_entry`, in the dict literal's
insertion order. -/
def outputColumns : List String :=
  ["TICKER_SYMBOL", "ETF_ISSUER", "ETF_DESCRIPTION", "ASSET_CLASS",
   "INCEPTION_DATE", "ASSETS_UNDER_MANAGEMENT", "EXPENSE_RATIO",
   "NUMBER_OF_HOLDINGS", "CURRENT_PRICE", "CUSIP", "ETF_CATEGORY",
   "TRACKING_INDEX", "GEOGRAPHIC_REGION", "COUNTRY_FOCUS", "HAS_OPTIONS"]

/-- Lines 571–576 of `_enhance_dataframe`, on one cell: the three numeric
columns are coerced with `pd.to_numeric(·, errors='coerce')` and then
replaced by their formatted display strings; every other column is left
unchanged. -/
def enhanceCell (k : String) (v : JVal) : JVal :=
  if k = "CURRENT_PRICE" then .jstr (fmtDollar (toNumeric v))
  else if k = "ASSETS_UNDER_MANAGEMENT" then .jstr (fmtDollarM (toNumeric v))
  else if k = "EXPENSE_RATIO" then .jstr (fmtPercent (toNumeric v))
  else v

/-- Lines 571–576 applied to one record (the pandas column operations act
cell-wise and every record shares the same columns). -/
def enhanceRow (row : Row) : Row :=
  row.map (fun kv => (kv.1, enhanceCell kv.1 kv.2))

/-- Lines 577–579: `cols = ['CUSIP'] + [c for c in df.columns if c != 'CUSIP']`
when `'CUSIP' in df.columns` — the CUSIP column moves to the front, the
rest keep their order. -/
def reorderCusip (row : Row) : Row :=
  if row.any (fun kv => kv.1 == "CUSIP") then
    row.filter (fun kv => kv.1 == "CUSIP") ++ row.filter (fun kv => kv.1 != "CUSIP")
  else row

/-- Lines 570–580, `_enhance_dataframe`: `pd.DataFrame([])` built from zero
records has no columns at all, so the first column access
`df['CURRENT_PRICE']` raises `KeyError`; otherwise each record is enhanced
cell-wise and reordered. -/
def enhanceDataframe (rows : List Row) : Except String (List Row) :=
  match rows with
  | [] => Except.error "KeyError: CURRENT_PRICE"
  | _ => Except.ok (rows.map (fun r => reorderCusip (enhanceRow r)))

/-- The value of the top-level `'data'` key of the raw payload (itself a
dict), when present. -/
structure RawInner where
  data : Option (List (String × Row))

/-- The raw screener payload: `data = none` models both an empty payload
(`not raw_data`) and one without the top-level `'data'` key. -/
structure RawPayload where
  data : Option RawInner

/-- Lines 538–547, `_process_data`: an empty payload or one without the
top-level `'data'` key yields an empty frame; `raw_data['data']['data']`
raises `KeyError` when the nested `'data'` key is missing; otherwise each
entry is processed and the frame enhanced. -/
def processData (raw : RawPayload) : Except String (List Row) :=
  match raw.data with
  | none => Except.ok []
  | some inner =>
    match inner.data with
    | none => Except.error "KeyError: data"
    | some entries => enhanceDataframe (entries.map processEtfEntry)

/-- The complete per-entry normalization: `_process_etf_entry` followed by
the cell enhancement and column reorder of `_enhance_dataframe`. -/
def normalizeEntry (entry : String × Row) : Row :=
  reorderCusip (enhanceRow (processEtfEntry entry))

/-! ### The presentation boundary (`main`, lines 952–1037) -/

/-- What the fetch produced: the parsed JSON payload, or an exception
raised by the HTTP request (a retrieval error, timeout, or malformed
body). -/
inductive FetchOutcome where
  | success (raw : RawPayload)
  | failure (msg : String)

/-- What the user sees: the `st.error("No data available.")` state, the
catch-all `st.error(f"An error occurred: ...")` banner, or the data
grid. -/
inductive View where
  | noData
  | errorBanner (msg : String)
  | table (rows : List Row)
deriving DecidableEq

/-- `main`, lines 952–1037: everything inside the `try` block — the fetch
and the normalization — is guarded only by the catch-all handler of lines
1035–1037, which shows an error banner; a successfully fetched but empty
frame shows the `"No data available."` state (lines 967–969); otherwise
the grid renders. -/
def mainView (outcome : FetchOutcome) : View :=
  match outcome with
  | .failure msg => .errorBanner ("An error occurred: " ++ msg)
  | .success raw =>
    match processData raw with
    | .error msg => .errorBanner ("An error occurred: " ++ msg)
    | .ok rows => if rows.length = 0 then .noData else .table rows

/-- The character filter of claim C5's round trip: currency symbols,
thousands separators, the `M` suffix and percent signs are removed. -/
def keepChar (c : Char) : Bool :=
  !(c == '$' || c == ',' || c == 'M' || c == '%')

/-- Strip a display string of `$`, `,`, `M` and `%`. -/
def stripL (l : List Char) : List Char := l.filter keepChar

/-- `stripL` on a string. -/
def stripFormat (s : String) : String := ⟨stripL s.data⟩

/-- The string held by a `JVal`, for reading display cells. -/
def jstrOf : JVal → String
  | .jstr s => s
  | _ => ""

/-- ASCII uppercasing of one character (Python `str.upper()` on the ASCII
tickers this feed uses). -/
def upChar (c : Char) : Char :=
  if 97 ≤ c.toNat ∧ c.toNat ≤ 122 then Char.ofNat (c.toNat - 32) else c

/-- ASCII uppercasing of a string; a string is uppercase when it is fixed
by `upperStr`. -/
def upperStr (s : String) : String := ⟨s.data.map upChar⟩

/-! ### Digit-level helper lemmas -/

/-- Every character of a list is a decimal digit — the shape invariant of
the formatter's output. -/
def AllDigits (l : List Char) : Prop := ∀ c ∈ l, ∃ d, d < 10 ∧ c = digitChar d

theorem digitChar_facts (d : Nat) (hd : d < 10) :
    digitVal (digitChar d) = d ∧ isDigitCh (digitChar d) = true ∧
    keepChar (digitChar d) = true ∧ digitChar d ≠ '.' ∧
    digitChar d ≠ '-' ∧ digitChar d ≠ '+' := by
  interval_cases d <;> exact ⟨rfl, rfl, rfl, by decide, by decide, by decide⟩

theorem natDigitsAux_succ (fuel m : Nat) :
    natDigitsAux (fuel + 1) (m + 1)
      = natDigitsAux fuel ((m + 1) / 10) ++ [digitChar ((m + 1) % 10)] := rfl

theorem natDigitsAux_allDigits (fuel n : Nat) : AllDigits (natDigitsAux fuel n) := by
  induction fuel generalizing n with
  | zero => intro c hc; simp [natDigitsAux] at hc
  | succ fuel ih =>
    intro c hc
    match n with
    | 0 => simp [natDigitsAux] at hc
    | m + 1 =>
      rw [natDigitsAux_succ] at hc
      rcases List.mem_append.mp hc with h | h
      · exact ih _ c h
      · rcases List.mem_singleton.mp h with rfl
        exact ⟨(m+1) % 10, Nat.mod_lt _ (by norm_num), rfl⟩

theorem natDigits_allDigits (n : Nat) : AllDigits (natDigits n) := by
  unfold natDigits
  split
  · intro c hc
    rcases List.mem_singleton.mp hc with rfl
    exact ⟨0, by norm_num, rfl⟩
  · exact natDigitsAux_allDigits n n

theorem pad2_allDigits (r : Nat) (h : r < 100) : AllDigits (pad2 r) := by
  intro c hc
  simp only [pad2, List.mem_cons, List.not_mem_nil, or_false] at hc
  rcases hc with rfl | rfl
  · exact ⟨r / 10, by omega, rfl⟩
  · exact ⟨r % 10, Nat.mod_lt _ (by norm_num), rfl⟩

theorem digitsToNat_append_one (a : List Char) (c : Char) :
    digitsToNat (a ++ [c]) = 10 * digitsToNat a + digitVal c := by
  simp [digitsToNat, List.foldl_append]

theorem digitsToNat_natDigitsAux (fuel n : Nat) (h : n ≤ fuel) :
    digitsToNat (natDigitsAux fuel n) = n := by
  induction fuel generalizing n with
  | zero =>
    interval_cases n
    rfl
  | succ fuel ih =>
    match n with
    | 0 => rfl
    | m + 1 =>
      rw [natDigitsAux_succ, digitsToNat_append_one, ih _ (by omega),
        (digitChar_facts ((m+1) % 10) (Nat.mod_lt _ (by norm_num))).1]
      omega

theorem digitsToNat_natDigits (n : Nat) : digitsToNat (natDigits n) = n := by
  unfold natDigits
  split
  · simp_all [digitsToNat, digitVal, digitChar]
  · exact digitsToNat_natDigitsAux n n le_rfl

theorem digitsToNat_pad2 (r : Nat) (h : r < 100) : digitsToNat (pad2 r) = r := by
  show digitsToNat ([digitChar (r / 10)] ++ [digitChar (r % 10)]) = r
  rw [digitsToNat_append_one, (digitChar_facts (r % 10) (Nat.mod_lt _ (by norm_num))).1]
  have h1 : digitsToNat [digitChar (r / 10)] = r / 10 := by
    show digitsToNat ([] ++ [digitChar (r / 10)]) = r / 10
    rw [digitsToNat_append_one, (digitChar_facts (r / 10) (by omega)).1]
    simp [digitsToNat]
  omega

theorem natDigits_ne_nil (n : Nat) : natDigits n ≠ [] := by
  unfold natDigits
  split
  · simp
  · next h =>
    match n, h with
    | m + 1, _ =>
      rw [natDigitsAux_succ]
      simp

/-! ### Stripping a formatted string recovers sign and digits -/

theorem filter_groupRevAux (fuel : Nat) (l : List Char) :
    (groupRevAux fuel l).filter keepChar = l.filter keepChar := by
  induction fuel generalizing l with
  | zero => rfl
  | succ fuel ih =>
    rw [groupRevAux]
    split
    · rfl
    · rw [List.filter_append]
      have h2 : List.filter keepChar (',' :: groupRevAux fuel (l.drop 3))
          = List.filter keepChar (groupRevAux fuel (l.drop 3)) := by
        rw [List.filter_cons_of_neg (by decide)]
      rw [h2, ih, ← List.filter_append, List.take_append_drop]

theorem filter_commaGroup (ds : List Char) :
    (commaGroup ds).filter keepChar = ds.filter keepChar := by
  unfold commaGroup
  rw [List.filter_reverse, filter_groupRevAux, List.filter_reverse, List.reverse_reverse]

theorem allDigits_filter_keep (l : List Char) (h : AllDigits l) :
    l.filter keepChar = l := by
  rw [List.filter_eq_self]
  intro c hc
  rcases h c hc with ⟨d, hd, rfl⟩
  exact (digitChar_facts d hd).2.2.1

theorem stripL_signChars (x : ℚ) : stripL (signChars x) = signChars x := by
  unfold signChars
  split <;> rfl

theorem stripL_fmt2groupedL (x : ℚ) :
    stripL (fmt2groupedL x) =
      signChars x ++ natDigits ((round2 x).natAbs / 100)
        ++ '.' :: pad2 ((round2 x).natAbs % 100) := by
  unfold fmt2groupedL stripL
  rw [List.filter_append, List.filter_append]
  rw [show List.filter keepChar (signChars x) = signChars x from stripL_signChars x]
  rw [filter_commaGroup, allDigits_filter_keep _ (natDigits_allDigits _)]
  rw [List.filter_cons_of_pos (by decide),
    allDigits_filter_keep _ (pad2_allDigits _ (Nat.mod_lt _ (by norm_num)))]

theorem stripL_fmt2plainL (x : ℚ) :
    stripL (fmt2plainL x) =
      signChars x ++ natDigits ((round2 x).natAbs / 100)
        ++ '.' :: pad2 ((round2 x).natAbs % 100) := by
  unfold fmt2plainL stripL
  rw [List.filter_append, List.filter_append]
  rw [show List.filter keepChar (signChars x) = signChars x from stripL_signChars x]
  rw [allDigits_filter_keep _ (natDigits_allDigits _)]
  rw [List.filter_cons_of_pos (by decide),
    allDigits_filter_keep _ (pad2_allDigits _ (Nat.mod_lt _ (by norm_num)))]

/-! ### The parser on the formatter's output -/

theorem allDigits_not_contains_dot (l : List Char) (h : AllDigits l) :
    l.contains '.' = false := by
  rw [List.contains_eq_any_beq, List.any_eq_false]
  intro c hc
  rcases h c hc with ⟨d, hd, rfl⟩
  have hne := (digitChar_facts d hd).2.2.2.1
  simp only [beq_iff_eq]
  exact fun e => hne e.symm

theorem splitDot_append (ds1 ds2 : List Char) (h1 : AllDigits ds1) (h2 : AllDigits ds2) :
    splitDot (ds1 ++ '.' :: ds2) = some (ds1, ds2) := by
  induction ds1 with
  | nil =>
    show splitDot ('.' :: ds2) = some ([], ds2)
    rw [splitDot]
    rw [if_pos rfl, allDigits_not_contains_dot ds2 h2]
    simp
  | cons c t ih =>
    rcases h1 c (List.mem_cons_self c t) with ⟨d, hd, rfl⟩
    show splitDot (digitChar d :: (t ++ '.' :: ds2)) = some (digitChar d :: t, ds2)
    rw [splitDot, if_neg (digitChar_facts d hd).2.2.2.1,
      ih (fun y hy => h1 y (List.mem_cons_of_mem _ hy))]

theorem allDigits_all_isDigit (l : List Char) (h : AllDigits l) :
    l.all isDigitCh = true := by
  rw [List.all_eq_true]
  intro c hc
  rcases h c hc with ⟨d, hd, rfl⟩
  exact (digitChar_facts d hd).2.1

theorem parseNumericL_neg_cons (rest : List Char) :
    parseNumericL ('-' :: rest) =
      (match splitDot rest with
       | none => none
       | some (i, f) =>
         if i.all isDigitCh && f.all isDigitCh && !(i.isEmpty && f.isEmpty) then
           some ((-1 : ℚ) * ((digitsToNat i : ℚ) + (digitsToNat f : ℚ) / 10 ^ f.length))
         else none) := rfl

theorem parseNumericL_pos_cons (c : Char) (rest : List Char)
    (hc1 : c ≠ '-') (hc2 : c ≠ '+') :
    parseNumericL (c :: rest) =
      (match splitDot (c :: rest) with
       | none => none
       | some (i, f) =>
         if i.all isDigitCh && f.all isDigitCh && !(i.isEmpty && f.isEmpty) then
           some ((1 : ℚ) * ((digitsToNat i : ℚ) + (digitsToNat f : ℚ) / 10 ^ f.length))
         else none) := by
  rw [parseNumericL]
  simp only [List.head?_cons, Option.some.injEq]
  rw [if_neg hc1, if_neg (by simp [hc1, hc2])]

theorem parseNumericL_core (neg : Bool) (ds1 ds2 : List Char)
    (h1 : AllDigits ds1) (h2 : AllDigits ds2) (hne : ds1 ≠ []) :
    parseNumericL ((if neg then ['-'] else []) ++ ds1 ++ '.' :: ds2) =
      some ((if neg then (-1 : ℚ) else 1) *
        ((digitsToNat ds1 : ℚ) + (digitsToNat ds2 : ℚ) / 10 ^ ds2.length)) := by
  have hsplit := splitDot_append ds1 ds2 h1 h2
  have hall : (ds1.all isDigitCh && ds2.all isDigitCh && !(ds1.isEmpty && ds2.isEmpty)) = true := by
    rw [allDigits_all_isDigit _ h1, allDigits_all_isDigit _ h2]
    simp [List.isEmpty_iff, hne]
  cases neg with
  | false =>
    match ds1, hne with
    | c :: t, _ =>
      rcases h1 c (List.mem_cons_self c t) with ⟨d, hd, rfl⟩
      rw [if_neg (by simp)]
      rw [List.nil_append, List.cons_append]
      rw [parseNumericL_pos_cons _ _ (digitChar_facts d hd).2.2.2.2.1
        (digitChar_facts d hd).2.2.2.2.2]
      rw [← List.cons_append, hsplit]
      simp only [hall, if_true, Bool.false_eq_true, if_false]
  | true =>
    rw [if_pos rfl, List.singleton_append, List.cons_append, parseNumericL_neg_cons, hsplit]
    simp only [hall, if_true]

theorem parseNumericL_digits (ds1 ds2 : List Char)
    (h1 : AllDigits ds1) (h2 : AllDigits ds2) (hne : ds1 ≠ []) :
    parseNumericL (ds1 ++ '.' :: ds2) =
      some ((digitsToNat ds1 : ℚ) + (digitsToNat ds2 : ℚ) / 10 ^ ds2.length) := by
  have h := parseNumericL_core false ds1 ds2 h1 h2 hne
  simpa using h

theorem parseNumericL_neg_digits (ds1 ds2 : List Char)
    (h1 : AllDigits ds1) (h2 : AllDigits ds2) (hne : ds1 ≠ []) :
    parseNumericL ('-' :: (ds1 ++ '.' :: ds2)) =
      some (-((digitsToNat ds1 : ℚ) + (digitsToNat ds2 : ℚ) / 10 ^ ds2.length)) := by
  have h := parseNumericL_core true ds1 ds2 h1 h2 hne
  simpa using h

/-! ### Rounding lemmas -/

theorem rhe_mem (x : ℚ) : rhe x = ⌊x⌋ ∨ rhe x = ⌊x⌋ + 1 := by
  unfold rhe
  split_ifs <;> simp

theorem rhe_abs_le (x : ℚ) : |(rhe x : ℚ) - x| ≤ 1/2 := by
  have h1 : (⌊x⌋ : ℚ) ≤ x := Int.floor_le x
  have h2 : x < ⌊x⌋ + 1 := Int.lt_floor_add_one x
  unfold rhe
  split_ifs with a b c <;>
    · rw [abs_le]
      push_cast
      constructor <;> linarith

theorem rhe_nonneg (x : ℚ) (h : 0 ≤ x) : 0 ≤ rhe x := by
  have hf : 0 ≤ ⌊x⌋ := Int.floor_nonneg.mpr h
  rcases rhe_mem x with he | he <;> omega

theorem rhe_nonpos (x : ℚ) (h : x < 0) : rhe x ≤ 0 := by
  have hf : (⌊x⌋ : ℚ) ≤ x := Int.floor_le x
  have hf2 : ⌊x⌋ < 0 := by
    by_contra hc
    push_neg at hc
    have : (0 : ℚ) ≤ ⌊x⌋ := by exact_mod_cast hc
    linarith
  rcases rhe_mem x with he | he <;> omega

theorem rhe_intCast (k : ℤ) : rhe (k : ℚ) = k := by
  unfold rhe
  simp [Int.floor_intCast]

theorem round2_eval (x : ℚ) (k : ℤ) (h : 100 * x = (k : ℚ)) : round2 x = k := by
  unfold round2
  rw [h, rhe_intCast]

theorem round2_abs_le (x : ℚ) : |((round2 x : ℚ)) / 100 - x| ≤ 1 / 200 := by
  have h := rhe_abs_le (100 * x)
  unfold round2
  have e : ((rhe (100 * x) : ℚ)) / 100 - x = ((rhe (100 * x) : ℚ) - 100 * x) / 100 := by ring
  rw [e, abs_div, abs_of_pos (show (0:ℚ) < 100 by norm_num)]
  linarith

theorem natCast_div_mod_hundred (a : Nat) :
    ((a / 100 : Nat) : ℚ) + ((a % 100 : Nat) : ℚ) / 100 = (a : ℚ) / 100 := by
  have h : ((a / 100 * 100 + a % 100 : Nat) : ℚ) = (a : ℚ) := by
    norm_cast
    omega
  field_simp
  push_cast at h ⊢
  linarith

theorem natAbs_cast_of_nonneg (n : ℤ) (h : 0 ≤ n) : ((n.natAbs : ℚ)) = (n : ℚ) := by
  rw [Int.cast_natAbs, abs_of_nonneg h]

theorem natAbs_cast_of_nonpos (n : ℤ) (h : n ≤ 0) : ((n.natAbs : ℚ)) = -(n : ℚ) := by
  rw [Int.cast_natAbs, abs_of_nonpos h]
  push_cast
  ring

/-! ### The round trip: parse (strip (format x)) -/

theorem round2_nonneg (x : ℚ) (h : 0 ≤ x) : 0 ≤ round2 x :=
  rhe_nonneg _ (by nlinarith)

theorem round2_nonpos (x : ℚ) (h : x < 0) : round2 x ≤ 0 :=
  rhe_nonpos _ (by nlinarith)

theorem parseNumericL_signed (x : ℚ) :
    parseNumericL (signChars x ++ natDigits ((round2 x).natAbs / 100)
      ++ '.' :: pad2 ((round2 x).natAbs % 100)) = some ((round2 x : ℚ) / 100) := by
  have hd1 : AllDigits (natDigits ((round2 x).natAbs / 100)) := natDigits_allDigits _
  have hd2 : AllDigits (pad2 ((round2 x).natAbs % 100)) :=
    pad2_allDigits _ (Nat.mod_lt _ (by norm_num))
  have hne := natDigits_ne_nil ((round2 x).natAbs / 100)
  have hval : ((digitsToNat (natDigits ((round2 x).natAbs / 100)) : ℚ)
      + (digitsToNat (pad2 ((round2 x).natAbs % 100)) : ℚ)
        / 10 ^ (pad2 ((round2 x).natAbs % 100)).length)
      = ((round2 x).natAbs : ℚ) / 100 := by
    rw [digitsToNat_natDigits, digitsToNat_pad2 _ (Nat.mod_lt _ (by norm_num)),
      show (pad2 ((round2 x).natAbs % 100)).length = 2 from rfl,
      show ((10 : ℚ) ^ 2) = 100 by norm_num]
    exact natCast_div_mod_hundred _
  by_cases hx : x < 0
  · have hsign : signChars x = ['-'] := by rw [signChars, if_pos hx]
    rw [hsign, List.singleton_append, List.cons_append,
      parseNumericL_neg_digits _ _ hd1 hd2 hne, hval,
      natAbs_cast_of_nonpos _ (round2_nonpos x hx)]
    simp only [Option.some.injEq]
    ring
  · have hsign : signChars x = [] := by rw [signChars, if_neg hx]
    rw [hsign, List.nil_append, parseNumericL_digits _ _ hd1 hd2 hne, hval,
      natAbs_cast_of_nonneg _ (round2_nonneg x (not_lt.mp hx))]

theorem parse_strip_fmtDollar (x : ℚ) :
    parseNumeric (stripFormat (fmtDollar (some x))) = some ((round2 x : ℚ) / 100) := by
  show parseNumericL (stripL ('$' :: fmt2groupedL x)) = _
  rw [show stripL ('$' :: fmt2groupedL x) = stripL (fmt2groupedL x) from
    List.filter_cons_of_neg (by decide)]
  rw [stripL_fmt2groupedL]
  exact parseNumericL_signed x

theorem parse_strip_fmtDollarM (x : ℚ) :
    parseNumeric (stripFormat (fmtDollarM (some x))) = some ((round2 x : ℚ) / 100) := by
  show parseNumericL (stripL ('$' :: (fmt2groupedL x ++ ['M']))) = _
  have h1 : stripL ('$' :: (fmt2groupedL x ++ ['M'])) = stripL (fmt2groupedL x) := by
    unfold stripL
    rw [List.filter_cons_of_neg (by decide), List.filter_append,
      show List.filter keepChar ['M'] = [] from rfl, List.append_nil]
  rw [h1, stripL_fmt2groupedL]
  exact parseNumericL_signed x

theorem parse_strip_fmtPercent (x : ℚ) :
    parseNumeric (stripFormat (fmtPercent (some x)))
      = some ((round2 (100 * x) : ℚ) / 100) := by
  show parseNumericL (stripL (fmt2plainL (100 * x) ++ ['%'])) = _
  have h1 : stripL (fmt2plainL (100 * x) ++ ['%']) = stripL (fmt2plainL (100 * x)) := by
    unfold stripL
    rw [List.filter_append, show List.filter keepChar ['%'] = [] from rfl, List.append_nil]
  rw [h1, stripL_fmt2plainL]
  exact parseNumericL_signed (100 * x)

/-! ### Evaluating displays at concrete values -/

theorem fmt2groupedL_eval (x : ℚ) (k : ℤ) (hk : round2 x = k) (hx : ¬ x < 0) :
    fmt2groupedL x = commaGroup (natDigits (k.natAbs / 100)) ++ '.' :: pad2 (k.natAbs % 100) := by
  rw [fmt2groupedL, signChars, if_neg hx, hk, List.nil_append]

theorem fmt2plainL_eval (x : ℚ) (k : ℤ) (hk : round2 x = k) (hx : ¬ x < 0) :
    fmt2plainL x = natDigits (k.natAbs / 100) ++ '.' :: pad2 (k.natAbs % 100) := by
  rw [fmt2plainL, signChars, if_neg hx, hk, List.nil_append]

theorem disp_price_spy : fmtDollar (some ((56012 : ℚ) / 100)) = "$560.12" := by
  rw [show fmtDollar (some ((56012 : ℚ) / 100)) = ⟨'$' :: fmt2groupedL ((56012 : ℚ) / 100)⟩ from rfl,
    fmt2groupedL_eval _ 56012 (round2_eval _ 56012 (by norm_num)) (by norm_num)]
  decide

theorem disp_price_b : fmtDollar (some ((560121 : ℚ) / 1000)) = "$560.12" := by
  have hfl : ⌊(100 : ℚ) * (560121 / 1000)⌋ = 56012 := by
    rw [Int.floor_eq_iff]
    constructor <;> norm_num
  have hr : round2 ((560121 : ℚ) / 1000) = 56012 := by
    unfold round2 rhe
    rw [hfl, if_pos (by norm_num)]
  rw [show fmtDollar (some ((560121 : ℚ) / 1000)) = ⟨'$' :: fmt2groupedL ((560121 : ℚ) / 1000)⟩ from rfl,
    fmt2groupedL_eval _ 56012 hr (by norm_num)]
  decide

theorem disp_aum_spy : fmtDollarM (some (450000 : ℚ)) = "$450,000.00M" := by
  rw [show fmtDollarM (some (450000 : ℚ)) = ⟨'$' :: (fmt2groupedL (450000 : ℚ) ++ ['M'])⟩ from rfl,
    fmt2groupedL_eval _ 45000000 (round2_eval _ 45000000 (by norm_num)) (by norm_num)]
  decide

theorem disp_expense_spy : fmtPercent (some ((189 : ℚ) / 2000)) = "9.45%" := by
  rw [show fmtPercent (some ((189 : ℚ) / 2000))
      = ⟨fmt2plainL (100 * ((189 : ℚ) / 2000)) ++ ['%']⟩ from rfl,
    fmt2plainL_eval _ 945 (round2_eval _ 945 (by norm_num)) (by norm_num)]
  decide

theorem disp_zero_dollar : fmtDollar (some (0 : ℚ)) = "$0.00" := by
  rw [show fmtDollar (some (0 : ℚ)) = ⟨'$' :: fmt2groupedL (0 : ℚ)⟩ from rfl,
    fmt2groupedL_eval _ 0 (round2_eval _ 0 (by norm_num)) (by norm_num)]
  decide

theorem disp_zero_dollarM : fmtDollarM (some (0 : ℚ)) = "$0.00M" := by
  rw [show fmtDollarM (some (0 : ℚ)) = ⟨'$' :: (fmt2groupedL (0 : ℚ) ++ ['M'])⟩ from rfl,
    fmt2groupedL_eval _ 0 (round2_eval _ 0 (by norm_num)) (by norm_num)]
  decide

theorem disp_zero_pct : fmtPercent (some (0 : ℚ)) = "0.00%" := by
  rw [show fmtPercent (some (0 : ℚ)) = ⟨fmt2plainL (100 * (0 : ℚ)) ++ ['%']⟩ from rfl,
    fmt2plainL_eval _ 0 (round2_eval _ 0 (by norm_num)) (by norm_num)]
  decide

/-! ### Pipeline-level helper lemmas -/

theorem processData_entries (entries : List (String × Row)) (hne : entries ≠ []) :
    processData ⟨some ⟨some entries⟩⟩ = Except.ok (entries.map normalizeEntry) := by
  match entries, hne with
  | e :: es, _ =>
    show Except.ok (((e :: es).map processEtfEntry).map (fun r => reorderCusip (enhanceRow r)))
      = Except.ok ((e :: es).map normalizeEntry)
    rw [List.map_map]
    rfl

theorem normalizeEntry_lookups (t : String) (data : Row) :
    (normalizeEntry (t, data)).lookup "TICKER_SYMBOL" = some (.jstr t)
  ∧ (normalizeEntry (t, data)).lookup "CURRENT_PRICE"
      = some (.jstr (fmtDollar (toNumeric (dget data "price" (.jnum 0)))))
  ∧ (normalizeEntry (t, data)).lookup "ASSETS_UNDER_MANAGEMENT"
      = some (.jstr (fmtDollarM (toNumeric (dget data "aum" (.jnum 0)))))
  ∧ (normalizeEntry (t, data)).lookup "EXPENSE_RATIO"
      = some (.jstr (fmtPercent (toNumeric (dget data "expenseRatio" (.jnum 0)))))
  ∧ (normalizeEntry (t, data)).lookup "CUSIP" = some (dget data "cusip" (.jstr "")) :=
  ⟨rfl, rfl, rfl, rfl, rfl⟩

/-! ### Concrete payloads used by the scenario claims -/

/-- The SPY raw entry of the spec's scenario, with the current price left as
a parameter (the feed's `560.12` is `56012/100`). -/
def spyDataP (p : ℚ) : Row :=
  [("issuer", .jstr "SSGA"), ("aum", .jnum 450000),
   ("price", .jnum p), ("expenseRatio", .jnum (189/2000))]

/-- The raw payload `{"data":{"data":{"SPY":{"issuer":"SSGA","aum":450000,
"price":560.12,"expenseRatio":0.0945}}}}`. -/
def spyPayload : RawPayload := ⟨some ⟨some [("SPY", spyDataP (56012/100))]⟩⟩

theorem normalizeEntry_spyDataP (p : ℚ) :
    normalizeEntry ("SPY", spyDataP p) =
      [("CUSIP", .jstr ""),
       ("TICKER_SYMBOL", .jstr "SPY"),
       ("ETF_ISSUER", .jstr "SSGA"),
       ("ETF_DESCRIPTION", .jstr ""),
       ("ASSET_CLASS", .jstr ""),
       ("INCEPTION_DATE", .jstr ""),
       ("ASSETS_UNDER_MANAGEMENT", .jstr (fmtDollarM (some (450000 : ℚ)))),
       ("EXPENSE_RATIO", .jstr (fmtPercent (some ((189 : ℚ)/2000)))),
       ("NUMBER_OF_HOLDINGS", .jnum 0),
       ("CURRENT_PRICE", .jstr (fmtDollar (some p))),
       ("ETF_CATEGORY", .jstr ""),
       ("TRACKING_INDEX", .jstr ""),
       ("GEOGRAPHIC_REGION", .jstr ""),
       ("COUNTRY_FOCUS", .jstr ""),
       ("HAS_OPTIONS", .jbool false)] := rfl

/-! ### The claims -/

/-- C1 (amended): a numeric field (price, AUM, expense ratio) that is
present but fails numeric parsing becomes "no value" and its display
string is empty — each field independently of the others; the original
claim's missing-field case instead defaults to `0` and is displayed as a
formatted zero (see the counterexample). -/
theorem C1_coercion (t : String) (data : Row) :
    (∀ v, data.lookup "price" = some v → toNumeric v = none →
       (normalizeEntry (t, data)).lookup "CURRENT_PRICE" = some (.jstr ""))
  ∧ (∀ v, data.lookup "aum" = some v → toNumeric v = none →
       (normalizeEntry (t, data)).lookup "ASSETS_UNDER_MANAGEMENT" = some (.jstr ""))
  ∧ (∀ v, data.lookup "expenseRatio" = some v → toNumeric v = none →
       (normalizeEntry (t, data)).lookup "EXPENSE_RATIO" = some (.jstr "")) := by
  refine ⟨fun v hv1 hv2 => ?_, fun v hv1 hv2 => ?_, fun v hv1 hv2 => ?_⟩
  · have hv : dget data "price" (.jnum 0) = v := by
      unfold dget
      rw [hv1]
      rfl
    rw [(normalizeEntry_lookups t data).2.1, hv, hv2]
    rfl
  · have hv : dget data "aum" (.jnum 0) = v := by
      unfold dget
      rw [hv1]
      rfl
    rw [(normalizeEntry_lookups t data).2.2.1, hv, hv2]
    rfl
  · have hv : dget data "expenseRatio" (.jnum 0) = v := by
      unfold dget
      rw [hv1]
      rfl
    rw [(normalizeEntry_lookups t data).2.2.2.1, hv, hv2]
    rfl

/-- Witness for C1 at a record where only the price fails to parse
(`{"price": "n/a", "aum": 5, "expenseRatio": 0.01}`): its price display
is empty while the other fields are untouched by the hypothesis. -/
theorem C1_witness :
    (normalizeEntry ("X", [("price", JVal.jstr "n/a"), ("aum", JVal.jnum 5),
        ("expenseRatio", JVal.jnum (1/100))])).lookup "CURRENT_PRICE"
      = some (.jstr "") :=
  (C1_coercion "X" [("price", JVal.jstr "n/a"), ("aum", JVal.jnum 5),
    ("expenseRatio", JVal.jnum (1/100))]).1 (.jstr "n/a") rfl rfl

/-- Counterexample for C1 as stated: an entry with no `price`, `aum` or
`expenseRatio` key at all gets the numeric default `0`, displayed as
`"$0.00"` / `"$0.00M"` / `"0.00%"` — not "no value" with an empty
display. -/
theorem C1_counterexample :
    (normalizeEntry ("SPY", ([] : Row))).lookup "CURRENT_PRICE" = some (.jstr "$0.00")
  ∧ (normalizeEntry ("SPY", ([] : Row))).lookup "ASSETS_UNDER_MANAGEMENT"
      = some (.jstr "$0.00M")
  ∧ (normalizeEntry ("SPY", ([] : Row))).lookup "EXPENSE_RATIO" = some (.jstr "0.00%")
  ∧ ("$0.00" : String) ≠ "" := by
  refine ⟨?_, ?_, ?_, by decide⟩
  · rw [(normalizeEntry_lookups "SPY" []).2.1,
      show toNumeric (dget [] "price" (.jnum 0)) = some (0 : ℚ) from rfl, disp_zero_dollar]
  · rw [(normalizeEntry_lookups "SPY" []).2.2.1,
      show toNumeric (dget [] "aum" (.jnum 0)) = some (0 : ℚ) from rfl, disp_zero_dollarM]
  · rw [(normalizeEntry_lookups "SPY" []).2.2.2.1,
      show toNumeric (dget [] "expenseRatio" (.jnum 0)) = some (0 : ℚ) from rfl, disp_zero_pct]

/-- C2: a raw payload that is empty or lacks the top-level `data` key
normalizes to the empty record sequence, raising nothing. -/
theorem C2_empty_payload (raw : RawPayload) (h : raw.data = none) :
    processData raw = Except.ok [] := by
  unfold processData
  rw [h]

/-- Witness for C2 at the empty payload. -/
theorem C2_witness :
    (RawPayload.mk none).data = none
  ∧ processData (RawPayload.mk none) = Except.ok [] :=
  ⟨rfl, C2_empty_payload ⟨none⟩ rfl⟩

/-- C3 (amended): for every payload with a NONEMPTY ticker-keyed entry
mapping, normalization yields exactly one record per raw entry, so the
output count equals the input count; the empty mapping instead raises a
`KeyError` inside `_enhance_dataframe` (see the counterexample). -/
theorem C3_count (entries : List (String × Row)) (hne : entries ≠ []) :
    processData ⟨some ⟨some entries⟩⟩ = Except.ok (entries.map normalizeEntry)
  ∧ (entries.map normalizeEntry).length = entries.length :=
  ⟨processData_entries entries hne, by simp⟩

/-- Witness for C3 at a one-entry payload. -/
theorem C3_witness :
    processData ⟨some ⟨some [("SPY", ([] : Row))]⟩⟩
        = Except.ok ([("SPY", ([] : Row))].map normalizeEntry)
  ∧ ([("SPY", ([] : Row))].map normalizeEntry).length = [("SPY", ([] : Row))].length :=
  C3_count [("SPY", [])] (by simp)

/-- Counterexample for C3 as stated: the payload whose entry mapping is
empty does not produce an (empty) record sequence — `pd.DataFrame([])` has
no columns, so `_enhance_dataframe` raises `KeyError` at its first column
access. -/
theorem C3_counterexample :
    processData ⟨some ⟨some []⟩⟩ = Except.error "KeyError: CURRENT_PRICE" := rfl

/-- C4: normalizing the SPY scenario payload yields exactly one record,
with ticker `"SPY"`, AUM display `"$450,000.00M"`, price display
`"$560.12"` and expense-ratio display `"9.45%"`. -/
theorem C4_spy_scenario :
    processData spyPayload = Except.ok [normalizeEntry ("SPY", spyDataP (56012/100))]
  ∧ (normalizeEntry ("SPY", spyDataP (56012/100))).lookup "TICKER_SYMBOL"
      = some (.jstr "SPY")
  ∧ (normalizeEntry ("SPY", spyDataP (56012/100))).lookup "ASSETS_UNDER_MANAGEMENT"
      = some (.jstr "$450,000.00M")
  ∧ (normalizeEntry ("SPY", spyDataP (56012/100))).lookup "CURRENT_PRICE"
      = some (.jstr "$560.12")
  ∧ (normalizeEntry ("SPY", spyDataP (56012/100))).lookup "EXPENSE_RATIO"
      = some (.jstr "9.45%") := by
  refine ⟨processData_entries _ (by simp), ?_, ?_, ?_, ?_⟩
  · rw [(normalizeEntry_lookups "SPY" (spyDataP (56012/100))).1]
  · rw [(normalizeEntry_lookups "SPY" (spyDataP (56012/100))).2.2.1,
      show toNumeric (dget (spyDataP (56012/100)) "aum" (.jnum 0))
        = some (450000 : ℚ) from rfl, disp_aum_spy]
  · rw [(normalizeEntry_lookups "SPY" (spyDataP (56012/100))).2.1,
      show toNumeric (dget (spyDataP (56012/100)) "price" (.jnum 0))
        = some ((56012 : ℚ)/100) from rfl, disp_price_spy]
  · rw [(normalizeEntry_lookups "SPY" (spyDataP (56012/100))).2.2.2.1,
      show toNumeric (dget (spyDataP (56012/100)) "expenseRatio" (.jnum 0))
        = some ((189 : ℚ)/2000) from rfl, disp_expense_spy]

/-- C5 (amended): stripped of `$`, `,`, `M` and `%`, the price and AUM
display strings parse back to the raw value within two-decimal rounding
(1/200); the expense-ratio display string instead parses back to 100 times
the raw value — the raw value expressed as a percentage — within
two-decimal rounding of that percentage (see the counterexample). -/
theorem C5_roundtrip (v : JVal) (q : ℚ) (h : toNumeric v = some q) :
    parseNumeric (stripFormat (jstrOf (enhanceCell "CURRENT_PRICE" v)))
        = some ((round2 q : ℚ) / 100)
  ∧ |((round2 q : ℚ)) / 100 - q| ≤ 1 / 200
  ∧ parseNumeric (stripFormat (jstrOf (enhanceCell "ASSETS_UNDER_MANAGEMENT" v)))
        = some ((round2 q : ℚ) / 100)
  ∧ parseNumeric (stripFormat (jstrOf (enhanceCell "EXPENSE_RATIO" v)))
        = some ((round2 (100 * q) : ℚ) / 100)
  ∧ |((round2 (100 * q) : ℚ)) / 100 - 100 * q| ≤ 1 / 200 := by
  refine ⟨?_, round2_abs_le q, ?_, ?_, round2_abs_le (100 * q)⟩
  · rw [show jstrOf (enhanceCell "CURRENT_PRICE" v) = fmtDollar (toNumeric v) from rfl, h]
    exact parse_strip_fmtDollar q
  · rw [show jstrOf (enhanceCell "ASSETS_UNDER_MANAGEMENT" v)
        = fmtDollarM (toNumeric v) from rfl, h]
    exact parse_strip_fmtDollarM q
  · rw [show jstrOf (enhanceCell "EXPENSE_RATIO" v) = fmtPercent (toNumeric v) from rfl, h]
    exact parse_strip_fmtPercent q

/-- Witness for C5 at the raw value `9/2`. -/
theorem C5_witness :
    parseNumeric (stripFormat (jstrOf (enhanceCell "CURRENT_PRICE" (.jnum (9/2)))))
        = some ((round2 ((9 : ℚ)/2) : ℚ) / 100)
  ∧ |((round2 ((9 : ℚ)/2) : ℚ)) / 100 - 9/2| ≤ 1 / 200
  ∧ parseNumeric (stripFormat (jstrOf (enhanceCell "ASSETS_UNDER_MANAGEMENT" (.jnum (9/2)))))
        = some ((round2 ((9 : ℚ)/2) : ℚ) / 100)
  ∧ parseNumeric (stripFormat (jstrOf (enhanceCell "EXPENSE_RATIO" (.jnum (9/2)))))
        = some ((round2 (100 * ((9 : ℚ)/2)) : ℚ) / 100)
  ∧ |((round2 (100 * ((9 : ℚ)/2)) : ℚ)) / 100 - 100 * ((9 : ℚ)/2)| ≤ 1 / 200 :=
  C5_roundtrip (.jnum (9/2)) (9/2) rfl

/-- Counterexample for C5 as stated: the raw expense ratio `0.0945`
displays as `"9.45%"`, which strips to `"9.45"` and parses to `9.45` —
not the raw `0.0945` within two-decimal rounding. -/
theorem C5_counterexample :
    jstrOf (enhanceCell "EXPENSE_RATIO" (.jnum ((189 : ℚ)/2000))) = "9.45%"
  ∧ parseNumeric (stripFormat "9.45%") = some ((189 : ℚ) / 20)
  ∧ ¬ |(189 : ℚ) / 20 - 189 / 2000| ≤ 1 / 200 := by
  refine ⟨?_, ?_, by rw [abs_of_nonneg (by norm_num)]; norm_num⟩
  · rw [show jstrOf (enhanceCell "EXPENSE_RATIO" (.jnum ((189 : ℚ)/2000)))
      = fmtPercent (some ((189 : ℚ)/2000)) from rfl, disp_expense_spy]
  · show parseNumericL (stripL ['9', '.', '4', '5', '%']) = some ((189 : ℚ) / 20)
    rw [show stripL ['9', '.', '4', '5', '%'] = ['9'] ++ '.' :: ['4', '5'] from rfl]
    rw [parseNumericL_digits ['9'] ['4', '5'] ?_ ?_ (by simp)]
    · rw [show digitsToNat ['9'] = 9 from rfl, show digitsToNat ['4', '5'] = 45 from rfl]
      norm_num
    · intro c hc
      simp only [List.mem_singleton] at hc
      exact ⟨9, by norm_num, by rw [hc]; rfl⟩
    · intro c hc
      simp only [List.mem_cons, List.not_mem_nil, or_false] at hc
      rcases hc with rfl | rfl
      · exact ⟨4, by norm_num, rfl⟩
      · exact ⟨5, by norm_num, rfl⟩

/-- C6 (amended): each of the three numeric fields of a normalized record
carries the formatted display string; the raw numeric value is overwritten
by the enhancement step and is not retained (see the counterexample, where
two distinct raw prices produce identical records). -/
theorem C6_display_fields (t : String) (data : Row) :
    (normalizeEntry (t, data)).lookup "CURRENT_PRICE"
        = some (.jstr (fmtDollar (toNumeric (dget data "price" (.jnum 0)))))
  ∧ (normalizeEntry (t, data)).lookup "ASSETS_UNDER_MANAGEMENT"
        = some (.jstr (fmtDollarM (toNumeric (dget data "aum" (.jnum 0)))))
  ∧ (normalizeEntry (t, data)).lookup "EXPENSE_RATIO"
        = some (.jstr (fmtPercent (toNumeric (dget data "expenseRatio" (.jnum 0))))) :=
  ⟨(normalizeEntry_lookups t data).2.1, (normalizeEntry_lookups t data).2.2.1,
    (normalizeEntry_lookups t data).2.2.2.1⟩

/-- Counterexample for C6 as stated: raw prices `560.12` and `560.121`
yield identical normalized records (both display `"$560.12"`), so the
record cannot carry the raw numeric value alongside the display string. -/
theorem C6_counterexample :
    normalizeEntry ("SPY", spyDataP (56012/100))
        = normalizeEntry ("SPY", spyDataP (560121/1000))
  ∧ ((56012 : ℚ)/100 ≠ (560121 : ℚ)/1000)
  ∧ (normalizeEntry ("SPY", spyDataP (560121/1000))).lookup "CURRENT_PRICE"
        = some (.jstr "$560.12") := by
  refine ⟨?_, by norm_num, ?_⟩
  · rw [normalizeEntry_spyDataP, normalizeEntry_spyDataP, disp_price_spy, disp_price_b]
  · rw [(normalizeEntry_lookups "SPY" (spyDataP (560121/1000))).2.1,
      show toNumeric (dget (spyDataP (560121/1000)) "price" (.jnum 0))
        = some ((560121 : ℚ)/1000) from rfl, disp_price_b]

/-- C7 (amended): the normalized record's ticker is the raw entry's key
passed through verbatim — so it is non-empty and uppercase exactly when
the raw key is; the code itself enforces neither (see the
counterexample). -/
theorem C7_ticker (t : String) (data : Row) (h1 : t ≠ "") (h2 : upperStr t = t) :
    (normalizeEntry (t, data)).lookup "TICKER_SYMBOL" = some (.jstr t)
  ∧ t ≠ "" ∧ upperStr t = t :=
  ⟨(normalizeEntry_lookups t data).1, h1, h2⟩

/-- Witness for C7 at the uppercase ticker `"SPY"`. -/
theorem C7_witness :
    (normalizeEntry ("SPY", ([] : Row))).lookup "TICKER_SYMBOL" = some (.jstr "SPY")
  ∧ ("SPY" : String) ≠ "" ∧ upperStr "SPY" = "SPY" :=
  C7_ticker "SPY" [] (by decide) (by decide)

/-- Counterexample for C7 as stated: a payload keyed by the lowercase
ticker `"spy"` yields a record whose ticker is `"spy"`, which is not
uppercase. -/
theorem C7_counterexample :
    processData ⟨some ⟨some [("spy", ([] : Row))]⟩⟩
        = Except.ok [normalizeEntry ("spy", ([] : Row))]
  ∧ (normalizeEntry ("spy", ([] : Row))).lookup "TICKER_SYMBOL" = some (.jstr "spy")
  ∧ upperStr "spy" ≠ "spy" :=
  ⟨processData_entries _ (by simp), (normalizeEntry_lookups "spy" []).1, by decide⟩

/-- C8 (amended): exceptions from the fetch or the normalization are
caught only by the catch-all handler in `main` and surface as an
`"An error occurred"` banner — not as the `"No data available."` state;
only a successfully fetched payload that normalizes to an empty frame
(e.g. one lacking the top-level `data` key) surfaces as the single
no-data state (see the counterexample for the failed-fetch case). -/
theorem C8_boundary (msg : String) (raw : RawPayload) (h : raw.data = none) :
    mainView (.failure msg) = .errorBanner ("An error occurred: " ++ msg)
  ∧ mainView (.success raw) = .noData := by
  constructor
  · rfl
  · have hp : processData raw = Except.ok [] := by
      unfold processData
      rw [h]
    simp only [mainView]
    rw [hp]
    rfl

/-- Witness for C8 at a timeout message and the empty payload. -/
theorem C8_witness :
    mainView (.failure "timeout") = .errorBanner ("An error occurred: " ++ "timeout")
  ∧ mainView (.success ⟨none⟩) = .noData :=
  C8_boundary "timeout" ⟨none⟩ rfl

/-- Counterexample for C8 as stated: a failed fetch surfaces as the error
banner, not as the "no data available" state. -/
theorem C8_counterexample :
    mainView (.failure "Connection timeout")
        = .errorBanner ("An error occurred: Connection timeout")
  ∧ mainView (.failure "Connection timeout") ≠ .noData :=
  ⟨rfl, by decide⟩

/-- C9: in every normalized record the CUSIP field comes first and the
remaining fields keep their insertion order (the tail is the original
column list with CUSIP filtered out, a sublist of the original order). -/
theorem C9_cusip_first (t : String) (data : Row) :
    (normalizeEntry (t, data)).map Prod.fst
        = "CUSIP" :: outputColumns.filter (fun c => c != "CUSIP")
  ∧ (outputColumns.filter (fun c => c != "CUSIP")).Sublist outputColumns
  ∧ (processEtfEntry (t, data)).map Prod.fst = outputColumns :=
  ⟨rfl, List.filter_sublist _, rfl⟩

/-- C10: every normalized record has exactly the fifteen fixed keys in
insertion order, regardless of the raw attributes; each output field reads
its source attribute with the fixed default (`''` for strings, `0` for
numerics, `False` for the optionable flag), and unknown raw attributes are
dropped. -/
theorem C10_fixed_schema (t : String) (data : Row) :
    (processEtfEntry (t, data)).map Prod.fst = outputColumns
  ∧ (processEtfEntry (t, data)).length = 15
  ∧ (processEtfEntry (t, data)).lookup "TICKER_SYMBOL" = some (.jstr t)
  ∧ (processEtfEntry (t, data)).lookup "ETF_ISSUER"
      = some ((data.lookup "issuer").getD (.jstr ""))
  ∧ (processEtfEntry (t, data)).lookup "ETF_DESCRIPTION"
      = some ((data.lookup "n").getD (.jstr ""))
  ∧ (processEtfEntry (t, data)).lookup "ASSET_CLASS"
      = some ((data.lookup "assetClass").getD (.jstr ""))
  ∧ (processEtfEntry (t, data)).lookup "INCEPTION_DATE"
      = some ((data.lookup "inceptionDate").getD (.jstr ""))
  ∧ (processEtfEntry (t, data)).lookup "ASSETS_UNDER_MANAGEMENT"
      = some ((data.lookup "aum").getD (.jnum 0))
  ∧ (processEtfEntry (t, data)).lookup "EXPENSE_RATIO"
      = some ((data.lookup "expenseRatio").getD (.jnum 0))
  ∧ (processEtfEntry (t, data)).lookup "NUMBER_OF_HOLDINGS"
      = some ((data.lookup "holdings").getD (.jnum 0))
  ∧ (processEtfEntry (t, data)).lookup "CURRENT_PRICE"
      = some ((data.lookup "price").getD (.jnum 0))
  ∧ (processEtfEntry (t, data)).lookup "CUSIP"
      = some ((data.lookup "cusip").getD (.jstr ""))
  ∧ (processEtfEntry (t, data)).lookup "ETF_CATEGORY"
      = some ((data.lookup "etfCategory").getD (.jstr ""))
  ∧ (processEtfEntry (t, data)).lookup "TRACKING_INDEX"
      = some ((data.lookup "etfIndex").getD (.jstr ""))
  ∧ (processEtfEntry (t, data)).lookup "GEOGRAPHIC_REGION"
      = some ((data.lookup "etfRegion").getD (.jstr ""))
  ∧ (processEtfEntry (t, data)).lookup "COUNTRY_FOCUS"
      = some ((data.lookup "etfCountry").getD (.jstr ""))
  ∧ (processEtfEntry (t, data)).lookup "HAS_OPTIONS"
      = some ((data.lookup "optionable").getD (.jbool false)) :=
  ⟨rfl, rfl, rfl, rfl, rfl, rfl, rfl, rfl, rfl, rfl, rfl, rfl, rfl, rfl, rfl, rfl, rfl⟩
